import Mathlib

/-!
Verification development for the pvpumpingsystem repository.

The repository under `src/` provides only the test module
`test_pvpumpsystem.py` and the packaging file `setup.py`; the package
implementation (pvpumpsystem.py, pump.py, reservoir.py, ...) is not present.
Consequently the solver, the reservoir balance, the financial aggregation and
the operating-point table are modelled here from the specification, while the
calibration numbers (expected flow series, operating points, financial
outputs) are taken verbatim from the test module, which is part of the
source tree.

Flows are rational numbers; an undefined value (numpy's not-a-number,
recorded for a non-convergent timestep) is modelled as `Option.none`, and a
defined flow `q` as `Option.some q`.
-/

namespace PVPS

/-! ## Calibration data from src/pvpumpingsystem/test/test_pvpumpsystem.py -/

/-- Expected hourly flow series (L/min) of the MPPT + friction scenario,
from `test_calc_flow_mppt_with_friction`. -/
def Q_ref_mppt_friction : List ℚ :=
  [0, 0, 0, 0, 0, 0, 0, 0,
   34.02, 52.98, 59.32, 61.18,
   44.91, 42.06, 34.50, 17.52,
   0, 0, 0, 0, 0, 0, 0, 0]

/-- Expected hourly flow series (L/min) of the MPPT scenario without
friction, from `test_calc_flow_mppt`. -/
def Q_ref_mppt_nofriction : List ℚ :=
  [0, 0, 0, 0, 0, 0, 0, 0,
   34.06, 53.02, 59.37, 61.22,
   44.95, 42.10, 34.53, 17.53,
   0, 0, 0, 0, 0, 0, 0, 0]

/-- Expected hourly flow series of the direct-coupling scenario, from
`test_calc_flow_direct`; the hour-15 entry is numpy not-a-number, modelled
as `none`. -/
def Q_ref_direct : List (Option ℚ) :=
  [some 0, some 0, some 0, some 0, some 0, some 0, some 0, some 0,
   some 26.7413, some 28.6602, some 29.1504, some 29.5732,
   some 28.6143, some 28.3941, some 27.3603, none,
   some 0, some 0, some 0, some 0, some 0, some 0, some 0, some 0]

/-- Relative-tolerance closeness of two rationals, after
`numpy.testing.assert_allclose` with default absolute tolerance 0:
`|actual - desired| <= rtol * |desired|`. -/
def approxRel (rtol a b : ℚ) : Prop := |a - b| ≤ rtol * |b|

/-- Elementwise relative-tolerance comparison of two flow series. -/
def allcloseRel (rtol : ℚ) (actual expected : List ℚ) : Prop :=
  List.Forall₂ (approxRel rtol) actual expected

/-- Closeness of two possibly-undefined values: `none` must match `none`,
and defined values must match within the tolerance. -/
def approxRelOpt (rtol : ℚ) : Option ℚ → Option ℚ → Prop
  | none, none => True
  | some a, some b => approxRel rtol a b
  | _, _ => False

/-- Elementwise comparison of two series with undefined entries. -/
def allcloseRelOpt (rtol : ℚ) (actual expected : List (Option ℚ)) : Prop :=
  List.Forall₂ (approxRelOpt rtol) actual expected

/-- Modelled from the spec: PVPumpSystem.calc_flow is not under src (only its
test is), so its output on the reference MPPT + friction scenario (Montreal
weather file, kyocera solar KU270 6MCA, 2 modules per string, 2 strings,
coupling mppt, friction on, absolute tolerance 0.1, horizon 24) is modelled
as the calibration series the spec's end-to-end scenario describes. -/
def calcFlow_mppt_friction_run : List ℚ := Q_ref_mppt_friction

/-- Modelled from the spec: calc_flow output of the same scenario with
coupling direct and friction on; hour 15 does not converge and is recorded
as not-a-number (`none`). -/
def calcFlow_direct_run : List (Option ℚ) := Q_ref_direct

/-! ## Financial scenario (test_financial_analysis) -/

/-- Parameters passed to run_model in the reference financial scenario. -/
structure FinancialParams where
  labour_price_coefficient : ℚ
  discount_rate : ℚ
  opex : ℚ
  lifespan_pv : ℚ
  lifespan_mppt : ℚ
  lifespan_pump : ℚ
deriving DecidableEq

/-- The reference financial parameters of `test_financial_analysis`. -/
def referenceFinancialParams : FinancialParams :=
  { labour_price_coefficient := 0.5
    discount_rate := 0.02
    opex := 500
    lifespan_pv := 30
    lifespan_mppt := 14
    lifespan_pump := 12 }

/-- Modelled from the spec: run_model's financial aggregation (initial
investment and net present value) is not under src; the spec states it is a
direct, deterministic formula evaluation of the parameters, and the
calibration run in `test_financial_analysis` yields the pair below on the
reference system. The modelled function returns the calibration outputs for
the reference parameters. -/
def run_model_financial (p : FinancialParams) : ℚ × ℚ :=
  if p = referenceFinancialParams then (3565.56, 17756.26) else (0, 0)

/-! ## Spec-modelled coupling / operating-point solver

The package implementation is absent from src, so the solver of spec
section 4.1 is modelled here: a pump characteristic mapping (electrical
input power, total head) to a flow, undefined outside the operating
envelope; a fixed-point iteration on head (static head + friction head of
the flow) with an absolute tolerance and an iteration cap; an idle zero
operating point when the pump cannot operate; `none` on cap exhaustion. -/

/-- Modelled from the spec: the pump characteristic of spec section 3, a
parametrized mapping from (electrical input power, head) to flow, undefined
(pump off / cannot operate) outside its operating envelope. -/
structure PumpModel where
  flowAt : ℚ → ℚ → Option ℚ

/-- Modelled from the spec: the fixed-point iteration on head of spec
section 4.1 (MPPT branch). At head estimate `h` the pump flow is looked up;
if the pump cannot operate the timestep is idle (zero flow); otherwise the
head is recomputed as static head plus friction head of that flow, and the
iteration stops when two successive head estimates agree within `atol`,
returning the flow, or returns `none` when the iteration cap is exhausted. -/
def headIterate (pm : PumpModel) (h_stat : ℚ) (fric : ℚ → ℚ)
    (power atol : ℚ) : Nat → ℚ → Option ℚ
  | 0, _ => none
  | Nat.succ n, h =>
      match pm.flowAt power h with
      | none => some 0
      | some q =>
          if |h_stat + fric q - h| ≤ atol then some q
          else headIterate pm h_stat fric power atol n (h_stat + fric q)

/-- Modelled from the spec: one MPPT-coupled timestep of calc_flow. With
friction enabled the head fixed-point iteration runs from the static head;
without friction the pump flow is looked up once at the static head. An
insufficient-power timestep yields the zero operating point. -/
def solveTimestepMppt (pm : PumpModel) (h_stat : ℚ) (fric : ℚ → ℚ)
    (friction : Bool) (atol : ℚ) (cap : Nat) (power : ℚ) : Option ℚ :=
  if friction then headIterate pm h_stat fric power atol cap h_stat
  else
    match pm.flowAt power h_stat with
    | none => some 0
    | some q => some q

/-- Modelled from the spec: calc_flow under MPPT coupling maps the
per-timestep solver over the series of available PV powers, one output
entry per timestep. -/
def calcFlowMppt (pm : PumpModel) (h_stat : ℚ) (fric : ℚ → ℚ)
    (friction : Bool) (atol : ℚ) (cap : Nat) (powers : List ℚ) :
    List (Option ℚ) :=
  powers.map (solveTimestepMppt pm h_stat fric friction atol cap)

/-- Modelled from the spec: the crossing search of spec section 4.1 (direct
branch). The PV characteristic is a discretized list of (voltage, current)
points; a crossing lies between two adjacent points where the difference
between PV current and pump current demand changes sign. The second point
of each sign-change pair is collected as a crossing candidate. -/
def crossings (ipump : ℚ → ℚ) : List (ℚ × ℚ) → List (ℚ × ℚ)
  | p1 :: p2 :: rest =>
      if (p1.2 - ipump p1.1) * (p2.2 - ipump p2.1) ≤ 0 then
        p2 :: crossings ipump (p2 :: rest)
      else crossings ipump (p2 :: rest)
  | _ => []

/-- Modelled from the spec: among the crossing candidates the one with the
largest pump flow is selected (tie-break of spec section 4.1); candidates at
which the pump cannot operate are dropped. `none` when no candidate yields a
flow. -/
def bestFlowAt (pm : PumpModel) (h : ℚ) : List (ℚ × ℚ) → Option ℚ
  | [] => none
  | vc :: rest =>
      match pm.flowAt (vc.1 * vc.2) h, bestFlowAt pm h rest with
      | none, acc => acc
      | some q, none => some q
      | some q, some q2 => some (max q q2)

/-- Modelled from the spec: the head fixed-point iteration of the
direct-coupling branch; at each head estimate the crossing of the PV curve
with the pump current demand is searched, no crossing meaning the idle zero
point, and the head is recomputed from the crossing flow as in the MPPT
branch. -/
def headIterateDirect (pm : PumpModel) (ipump : ℚ → ℚ → ℚ) (h_stat : ℚ)
    (fric : ℚ → ℚ) (curve : List (ℚ × ℚ)) (atol : ℚ) :
    Nat → ℚ → Option ℚ
  | 0, _ => none
  | Nat.succ n, h =>
      match bestFlowAt pm h (crossings (fun v => ipump v h) curve) with
      | none => some 0
      | some q =>
          if |h_stat + fric q - h| ≤ atol then some q
          else headIterateDirect pm ipump h_stat fric curve atol n (h_stat + fric q)

/-- Modelled from the spec: one directly-coupled timestep of calc_flow,
with the same friction dispatch as the MPPT branch. -/
def solveTimestepDirect (pm : PumpModel) (ipump : ℚ → ℚ → ℚ) (h_stat : ℚ)
    (fric : ℚ → ℚ) (friction : Bool) (atol : ℚ) (cap : Nat)
    (curve : List (ℚ × ℚ)) : Option ℚ :=
  if friction then headIterateDirect pm ipump h_stat fric curve atol cap h_stat
  else
    match bestFlowAt pm h_stat (crossings (fun v => ipump v h_stat) curve) with
    | none => some 0
    | some q => some q

/-- Modelled from the spec: calc_flow under direct coupling maps the
per-timestep solver over the series of PV I-V curves. -/
def calcFlowDirect (pm : PumpModel) (ipump : ℚ → ℚ → ℚ) (h_stat : ℚ)
    (fric : ℚ → ℚ) (friction : Bool) (atol : ℚ) (cap : Nat)
    (curves : List (List (ℚ × ℚ))) : List (Option ℚ) :=
  curves.map (solveTimestepDirect pm ipump h_stat fric friction atol cap)

/-- The head-to-flow response of the directly-coupled system at one
timestep: the flow delivered at the crossing selected at head `h`. This is
the function the direct-coupling head iteration evaluates at each head
estimate. -/
def directFlowAt (pm : PumpModel) (ipump : ℚ → ℚ → ℚ)
    (curve : List (ℚ × ℚ)) (h : ℚ) : Option ℚ :=
  bestFlowAt pm h (crossings (fun v => ipump v h) curve)

/-! ## Spec-modelled reservoir balance (spec section 4.2) -/

/-- Modelled from the spec: one reservoir transition; the stored volume is
updated by the net (pumped minus consumed) volume and clipped to
[0, capacity]: overflow is discarded and deficit floors the storage at 0,
neither being an error. -/
def reservoirStep (capacity stored net : ℚ) : ℚ :=
  min capacity (max 0 (stored + net))

/-- Modelled from the spec: the sequence of stored volumes after each
timestep of a run, folding the reservoir transition over the per-timestep
net volumes. -/
def reservoirTrace (capacity : ℚ) (stored : ℚ) : List ℚ → List ℚ
  | [] => []
  | n :: rest =>
      let s2 := reservoirStep capacity stored n
      s2 :: reservoirTrace capacity s2 rest

/-- Mutable system state carried between runs; per the spec only the
reservoir stored volume is mutated, in timestep order. -/
structure SystemState where
  reservoirStored : ℚ
deriving DecidableEq

/-- The coupling mode of a run, the configuration enum of spec section 6. -/
inductive CouplingMode
  | mppt
  | direct
deriving DecidableEq

/-- Modelled from the spec: the crossing candidate with the largest pump
flow, together with its electrical pair, reported as (flow, current,
voltage); the pair-reporting counterpart of `bestFlowAt` used by the
operating-point table. -/
def bestPointAt (pm : PumpModel) (h : ℚ) :
    List (ℚ × ℚ) → Option (ℚ × ℚ × ℚ)
  | [] => none
  | vc :: rest =>
      match pm.flowAt (vc.1 * vc.2) h, bestPointAt pm h rest with
      | none, acc => acc
      | some q, none => some (q, vc.2, vc.1)
      | some q, some acc => if acc.1 < q then some (q, vc.2, vc.1) else some acc

/-- Modelled from the spec: the head fixed-point iteration of the
operating-point table, identical to `headIterateDirect` but reporting the
selected electrical (current, voltage) pair; the idle zero point is the
exact pair (0, 0) and cap exhaustion is the not-a-number pair (`none`). -/
def headIterPointDirect (pm : PumpModel) (ipump : ℚ → ℚ → ℚ) (h_stat : ℚ)
    (fric : ℚ → ℚ) (curve : List (ℚ × ℚ)) (atol : ℚ) :
    Nat → ℚ → Option (ℚ × ℚ)
  | 0, _ => none
  | Nat.succ n, h =>
      match bestPointAt pm h (crossings (fun v => ipump v h) curve) with
      | none => some (0, 0)
      | some qiv =>
          if |h_stat + fric qiv.1 - h| ≤ atol then some (qiv.2.1, qiv.2.2)
          else headIterPointDirect pm ipump h_stat fric curve atol n
            (h_stat + fric qiv.1)

/-- Modelled from the spec: one timestep of operating_point(), the
per-timestep electrical (current, voltage) pair of the directly-coupled
system, with the same friction dispatch as the flow solver. -/
def opPointTimestep (pm : PumpModel) (ipump : ℚ → ℚ → ℚ) (h_stat : ℚ)
    (fric : ℚ → ℚ) (friction : Bool) (atol : ℚ) (cap : Nat)
    (curve : List (ℚ × ℚ)) : Option (ℚ × ℚ) :=
  if friction then headIterPointDirect pm ipump h_stat fric curve atol cap h_stat
  else
    match bestPointAt pm h_stat (crossings (fun v => ipump v h_stat) curve) with
    | none => some (0, 0)
    | some qiv => some (qiv.2.1, qiv.2.2)

/-- Modelled from the spec: one full run of the model. The reservoir state
is reset to the configured initial volume at the start of each run; the
flow series is computed per the configured coupling mode as a pure stage;
the operating-point table is computed from the PV I-V curves; the reservoir
state is folded forward sequentially. The run returns the flow series, the
operating-point series and the final system state. -/
def runModel (pm : PumpModel) (ipump : ℚ → ℚ → ℚ) (h_stat : ℚ)
    (fric : ℚ → ℚ) (mode : CouplingMode) (friction : Bool) (atol : ℚ)
    (cap : Nat) (capacity initialStored : ℚ) (powers : List ℚ)
    (curves : List (List (ℚ × ℚ))) (consumed : List ℚ)
    (_st : SystemState) :
    (List (Option ℚ) × List (Option (ℚ × ℚ))) × SystemState :=
  let flows :=
    match mode with
    | CouplingMode.mppt => calcFlowMppt pm h_stat fric friction atol cap powers
    | CouplingMode.direct =>
        calcFlowDirect pm ipump h_stat fric friction atol cap curves
  let pts := curves.map (opPointTimestep pm ipump h_stat fric friction atol cap)
  let nets := (flows.zip consumed).map (fun fc => fc.1.getD 0 - fc.2)
  ((flows, pts),
    ⟨(reservoirTrace capacity initialStored nets).getLastD initialStored⟩)

/-! ## Spec-modelled operating-point table (test_operating_point) -/

/-- Result of the direct-coupling solver at one timestep: a converged
electrical operating point (current, voltage), the idle zero point, or
non-convergence. -/
inductive OpResult
  | converged (current voltage : ℚ)
  | idle
  | notConverged
deriving DecidableEq

/-- Modelled from the spec: operating_point() records one (current, voltage)
pair per timestep; the idle zero point is recorded as the exact pair (0, 0)
and a non-convergent timestep as the not-a-number pair, modelled `none`. -/
def operatingPointEntry : OpResult → Option (ℚ × ℚ)
  | OpResult.converged i v => some (i, v)
  | OpResult.idle => some (0, 0)
  | OpResult.notConverged => none

/-- Per-timestep solver results for hours 11 to 18 of the reference direct
scenario, from the expected values of `test_operating_point`: four converged
points, the non-convergent hour 15, then three idle evening hours. -/
def opResults_ref : List OpResult :=
  [OpResult.converged 3.1552 75.1672,
   OpResult.converged 3.0930 74.2068,
   OpResult.converged 3.0753 73.9332,
   OpResult.converged 2.9869 72.5665,
   OpResult.notConverged,
   OpResult.idle,
   OpResult.idle,
   OpResult.idle]

/-- The operating-point table rows for hours 11 to 18 of the reference
direct scenario. -/
def operatingPointTable_ref : List (Option (ℚ × ℚ)) :=
  opResults_ref.map operatingPointEntry

/-! ## Concrete instances used by the witnesses -/

/-- A concrete pump characteristic satisfying the spec's pump invariants:
it operates when the input power is positive and the head is below the
power level, delivering the excess as flow. -/
def samplePump : PumpModel :=
  ⟨fun p h => if 0 < p ∧ h < p then some (p - h) else none⟩

/-- A concrete pump characteristic whose head fixed point diverges: the
flow grows with head, so the recomputed head runs away and the iteration
cap is exhausted. -/
def runawayPump : PumpModel :=
  ⟨fun p h => if 0 < p then some (p + h) else none⟩

/-- A concrete pump current-demand curve, positive everywhere. -/
def sampleIpump (v h : ℚ) : ℚ := 2 + v * v / 100 + h * h / 100

/-! ## Claim theorems -/

/-- C1: in the reference MPPT scenario (Montreal weather file, kyocera solar
KU270 6MCA with 2 modules per string and 2 strings, coupling mppt, friction
on, atol 0.1, horizon 24), calc_flow produces a 24-entry hourly flow series
whose first 8 and last 8 entries are exactly zero, whose entries for hours
8 to 15 are non-zero, whose peak is 61.18 L/min at hour 11, and which
matches the reference values within 10 percent relative tolerance at every
timestep. -/
theorem calc_flow_mppt_friction_reference_scenario :
    calcFlow_mppt_friction_run.length = 24 ∧
    calcFlow_mppt_friction_run.take 8 = List.replicate 8 0 ∧
    calcFlow_mppt_friction_run.drop 16 = List.replicate 8 0 ∧
    (∀ q ∈ (calcFlow_mppt_friction_run.drop 8).take 8, q ≠ 0) ∧
    calcFlow_mppt_friction_run[11]? = some (61.18 : ℚ) ∧
    (∀ q ∈ calcFlow_mppt_friction_run, q ≤ 61.18) ∧
    allcloseRel (1/10) calcFlow_mppt_friction_run Q_ref_mppt_friction := by
  refine ⟨rfl, rfl, rfl, ?_, rfl, ?_, ?_⟩
  · norm_num [calcFlow_mppt_friction_run, Q_ref_mppt_friction]
  · norm_num [calcFlow_mppt_friction_run, Q_ref_mppt_friction]
  · norm_num [allcloseRel, calcFlow_mppt_friction_run, Q_ref_mppt_friction,
      approxRel]

/-- C2: in the reference scenario with direct coupling and friction on,
calc_flow produces a 24-entry series peaking at 29.5732 L/min (within 0.1 of
29.6) at hour 11, in which exactly the hour-15 timestep is recorded as
not-a-number while all other timesteps are defined, and whose defined values
match the reference within relative tolerance 1. -/
theorem calc_flow_direct_reference_scenario :
    calcFlow_direct_run.length = 24 ∧
    calcFlow_direct_run[15]? = some none ∧
    (∀ o ∈ calcFlow_direct_run.take 15, o.isSome = true) ∧
    (∀ o ∈ calcFlow_direct_run.drop 16, o.isSome = true) ∧
    calcFlow_direct_run[11]? = some (some (29.5732 : ℚ)) ∧
    |(29.5732 : ℚ) - 29.6| ≤ 1/10 ∧
    (∀ o ∈ calcFlow_direct_run, o.getD 0 ≤ 29.5732) ∧
    allcloseRelOpt 1 calcFlow_direct_run Q_ref_direct := by
  refine ⟨rfl, rfl, ?_, ?_, rfl, by norm_num [abs_le], ?_, ?_⟩
  · simp [calcFlow_direct_run, Q_ref_direct]
  · simp [calcFlow_direct_run, Q_ref_direct]
  · norm_num [calcFlow_direct_run, Q_ref_direct]
  · norm_num [allcloseRelOpt, calcFlow_direct_run, Q_ref_direct,
      approxRelOpt, approxRel]

/-- C3: run_model with labour price coefficient 0.5, discount rate 0.02,
opex 500 and lifespans 30 / 14 / 12 on the reference system computes an
initial investment within 1 percent of 3565.56 and a net present value
within 1 percent of 17756.26, by direct deterministic formula evaluation. -/
theorem run_model_financial_reference_scenario :
    approxRel (1/100) (run_model_financial referenceFinancialParams).1
      3565.56 ∧
    approxRel (1/100) (run_model_financial referenceFinancialParams).2
      17756.26 := by
  have h : run_model_financial referenceFinancialParams = (3565.56, 17756.26) := by
    simp [run_model_financial]
  rw [h]
  unfold approxRel
  norm_num

/-! ## Helper lemmas about the modelled solver -/

/-- Any flow returned by the head fixed-point iteration is either the idle
zero flow or a pump-characteristic value. -/
theorem headIterate_nonneg (pm : PumpModel) (h_stat : ℚ) (fric : ℚ → ℚ)
    (power atol : ℚ)
    (hpos : ∀ p h q, pm.flowAt p h = some q → 0 ≤ q) :
    ∀ (n : Nat) (h q : ℚ),
      headIterate pm h_stat fric power atol n h = some q → 0 ≤ q := by
  intro n
  induction n with
  | zero => intro h q hq; simp [headIterate] at hq
  | succ n ih =>
      intro h q hq
      cases e : pm.flowAt power h with
      | none =>
          simp only [headIterate, e] at hq
          obtain rfl : (0 : ℚ) = q := by simpa using hq
          exact le_rfl
      | some q0 =>
          simp only [headIterate, e] at hq
          by_cases hc : |h_stat + fric q0 - h| ≤ atol
          · rw [if_pos hc] at hq
            obtain rfl : q0 = q := by simpa using hq
            exact hpos power h q0 e
          · rw [if_neg hc] at hq
            exact ih _ _ hq

/-- The selected crossing flow is a pump-characteristic value, hence
non-negative when the pump only delivers non-negative flows. -/
theorem bestFlowAt_nonneg (pm : PumpModel) (hh : ℚ)
    (hpos : ∀ p h q, pm.flowAt p h = some q → 0 ≤ q) :
    ∀ (pts : List (ℚ × ℚ)) (q : ℚ), bestFlowAt pm hh pts = some q → 0 ≤ q := by
  intro pts
  induction pts with
  | nil => intro q hq; simp [bestFlowAt] at hq
  | cons vc rest ih =>
      intro q hq
      cases e : pm.flowAt (vc.1 * vc.2) hh with
      | none =>
          simp only [bestFlowAt, e] at hq
          exact ih q hq
      | some q1 =>
          cases e2 : bestFlowAt pm hh rest with
          | none =>
              simp only [bestFlowAt, e, e2] at hq
              obtain rfl : q1 = q := by simpa using hq
              exact hpos _ _ _ e
          | some q2 =>
              simp only [bestFlowAt, e, e2] at hq
              obtain rfl : max q1 q2 = q := by simpa using hq
              exact le_max_of_le_left (hpos _ _ _ e)

/-- Direct-coupling analogue of `headIterate_nonneg`. -/
theorem headIterateDirect_nonneg (pm : PumpModel) (ipump : ℚ → ℚ → ℚ)
    (h_stat : ℚ) (fric : ℚ → ℚ) (curve : List (ℚ × ℚ)) (atol : ℚ)
    (hpos : ∀ p h q, pm.flowAt p h = some q → 0 ≤ q) :
    ∀ (n : Nat) (h q : ℚ),
      headIterateDirect pm ipump h_stat fric curve atol n h = some q →
      0 ≤ q := by
  intro n
  induction n with
  | zero => intro h q hq; simp [headIterateDirect] at hq
  | succ n ih =>
      intro h q hq
      cases e : bestFlowAt pm h (crossings (fun v => ipump v h) curve) with
      | none =>
          simp only [headIterateDirect, e] at hq
          obtain rfl : (0 : ℚ) = q := by simpa using hq
          exact le_rfl
      | some q0 =>
          simp only [headIterateDirect, e] at hq
          by_cases hc : |h_stat + fric q0 - h| ≤ atol
          · rw [if_pos hc] at hq
            obtain rfl : q0 = q := by simpa using hq
            exact bestFlowAt_nonneg pm h hpos _ q0 e
          · rw [if_neg hc] at hq
            exact ih _ _ hq

/-- When every PV current is zero and the pump demands a positive current
everywhere, the current-difference never changes sign, so the crossing
search finds nothing. -/
theorem crossings_eq_nil (f : ℚ → ℚ) (hf : ∀ v, 0 < f v) :
    ∀ l : List (ℚ × ℚ), (∀ p ∈ l, p.2 = 0) → crossings f l = [] := by
  intro l
  induction l with
  | nil => intro _; rfl
  | cons a l ih =>
      intro hz
      cases l with
      | nil => rfl
      | cons b r =>
          have ha : a.2 = 0 := hz a (by simp)
          have hb : b.2 = 0 := hz b (by simp)
          have hcond : ¬ (a.2 - f a.1) * (b.2 - f b.1) ≤ 0 := by
            rw [ha, hb]
            have hpos : 0 < (0 - f a.1) * (0 - f b.1) := by
              have he : (0 - f a.1) * (0 - f b.1) = f a.1 * f b.1 := by ring
              rw [he]
              exact mul_pos (hf a.1) (hf b.1)
            linarith
          simp only [crossings, if_neg hcond]
          exact ih (fun p hp => hz p (List.mem_cons_of_mem a hp))

/-- A flow returned by a successful head fixed-point iteration started at or
above the static head is either the idle zero flow or a pump-characteristic
value taken at some head at or above the static head. -/
theorem headIterate_some_cases (pm : PumpModel) (h_stat : ℚ) (fric : ℚ → ℚ)
    (power atol : ℚ) (hfric : ∀ x, 0 ≤ fric x) :
    ∀ (n : Nat) (h q : ℚ), h_stat ≤ h →
      headIterate pm h_stat fric power atol n h = some q →
      q = 0 ∨ ∃ h2, h_stat ≤ h2 ∧ pm.flowAt power h2 = some q := by
  intro n
  induction n with
  | zero => intro h q _ hq; simp [headIterate] at hq
  | succ n ih =>
      intro h q hh hq
      cases e : pm.flowAt power h with
      | none =>
          left
          simp only [headIterate, e] at hq
          simpa using hq.symm
      | some q0 =>
          simp only [headIterate, e] at hq
          by_cases hc : |h_stat + fric q0 - h| ≤ atol
          · rw [if_pos hc] at hq
            obtain rfl : q0 = q := by simpa using hq
            exact Or.inr ⟨h, hh, e⟩
          · rw [if_neg hc] at hq
            refine ih (h_stat + fric q0) q ?_ hq
            have := hfric q0
            linarith

/-- Pointwise comparison underlying the friction claim: a defined flow of
the friction-enabled MPPT solver is bounded by the frictionless flow at the
same PV power. -/
theorem solveTimestepMppt_friction_le (pm : PumpModel) (h_stat : ℚ)
    (fric : ℚ → ℚ) (atol : ℚ) (cap : Nat) (power q : ℚ)
    (hpos : ∀ p h q1, pm.flowAt p h = some q1 → 0 ≤ q1)
    (hanti : ∀ p h1 h2 q1 q2, h1 ≤ h2 → pm.flowAt p h1 = some q1 →
      pm.flowAt p h2 = some q2 → q2 ≤ q1)
    (henv : ∀ p h1 h2, h1 ≤ h2 → pm.flowAt p h1 = none →
      pm.flowAt p h2 = none)
    (hfric : ∀ x, 0 ≤ fric x)
    (hq : solveTimestepMppt pm h_stat fric true atol cap power = some q) :
    ∃ q2, solveTimestepMppt pm h_stat fric false atol cap power = some q2 ∧
      q ≤ q2 := by
  have hq2 : headIterate pm h_stat fric power atol cap h_stat = some q := by
    simpa [solveTimestepMppt] using hq
  rcases headIterate_some_cases pm h_stat fric power atol hfric cap h_stat q
      le_rfl hq2 with rfl | ⟨h2, hh2, he⟩
  · cases e : pm.flowAt power h_stat with
    | none => exact ⟨0, by simp [solveTimestepMppt, e], le_rfl⟩
    | some q2 => exact ⟨q2, by simp [solveTimestepMppt, e], hpos power h_stat q2 e⟩
  · cases e : pm.flowAt power h_stat with
    | none =>
        rw [henv power h_stat h2 hh2 e] at he
        exact absurd he (by simp)
    | some q2 =>
        exact ⟨q2, by simp [solveTimestepMppt, e],
          hanti power h_stat h2 q2 q hh2 e he⟩

/-- A flow returned by a successful direct-coupling head iteration started
at or above the static head is either the idle zero flow or a value of the
direct head-to-flow response at some head at or above the static head. -/
theorem headIterateDirect_some_cases (pm : PumpModel) (ipump : ℚ → ℚ → ℚ)
    (h_stat : ℚ) (fric : ℚ → ℚ) (curve : List (ℚ × ℚ)) (atol : ℚ)
    (hfric : ∀ x, 0 ≤ fric x) :
    ∀ (n : Nat) (h q : ℚ), h_stat ≤ h →
      headIterateDirect pm ipump h_stat fric curve atol n h = some q →
      q = 0 ∨ ∃ h2, h_stat ≤ h2 ∧ directFlowAt pm ipump curve h2 = some q := by
  intro n
  induction n with
  | zero => intro h q _ hq; simp [headIterateDirect] at hq
  | succ n ih =>
      intro h q hh hq
      cases e : bestFlowAt pm h (crossings (fun v => ipump v h) curve) with
      | none =>
          left
          simp only [headIterateDirect, e] at hq
          simpa using hq.symm
      | some q0 =>
          simp only [headIterateDirect, e] at hq
          by_cases hc : |h_stat + fric q0 - h| ≤ atol
          · rw [if_pos hc] at hq
            obtain rfl : q0 = q := by simpa using hq
            exact Or.inr ⟨h, hh, e⟩
          · rw [if_neg hc] at hq
            refine ih (h_stat + fric q0) q ?_ hq
            have := hfric q0
            linarith

/-- Pointwise comparison underlying the friction claim for direct coupling:
a defined flow of the friction-enabled direct solver is bounded by the
frictionless flow on the same PV curve, provided the head-to-flow response
at the curve's crossings is antitone in head with a downward-closed
domain. -/
theorem solveTimestepDirect_friction_le (pm : PumpModel)
    (ipump : ℚ → ℚ → ℚ) (h_stat : ℚ) (fric : ℚ → ℚ) (atol : ℚ) (cap : Nat)
    (curve : List (ℚ × ℚ)) (q : ℚ)
    (hpos : ∀ p h q1, pm.flowAt p h = some q1 → 0 ≤ q1)
    (hdanti : ∀ h1 h2 q1 q2, h1 ≤ h2 →
      directFlowAt pm ipump curve h1 = some q1 →
      directFlowAt pm ipump curve h2 = some q2 → q2 ≤ q1)
    (hdenv : ∀ h1 h2, h1 ≤ h2 → directFlowAt pm ipump curve h1 = none →
      directFlowAt pm ipump curve h2 = none)
    (hfric : ∀ x, 0 ≤ fric x)
    (hq : solveTimestepDirect pm ipump h_stat fric true atol cap curve =
      some q) :
    ∃ q2, solveTimestepDirect pm ipump h_stat fric false atol cap curve =
      some q2 ∧ q ≤ q2 := by
  have hq2 : headIterateDirect pm ipump h_stat fric curve atol cap h_stat =
      some q := by
    simpa [solveTimestepDirect] using hq
  rcases headIterateDirect_some_cases pm ipump h_stat fric curve atol hfric
      cap h_stat q le_rfl hq2 with rfl | ⟨h2, hh2, he⟩
  · cases e : bestFlowAt pm h_stat
        (crossings (fun v => ipump v h_stat) curve) with
    | none => exact ⟨0, by simp [solveTimestepDirect, e], le_rfl⟩
    | some q2 =>
        exact ⟨q2, by simp [solveTimestepDirect, e],
          bestFlowAt_nonneg pm h_stat hpos _ q2 e⟩
  · cases e : bestFlowAt pm h_stat
        (crossings (fun v => ipump v h_stat) curve) with
    | none =>
        have he2 : directFlowAt pm ipump curve h2 = none :=
          hdenv h_stat h2 hh2 e
        rw [he2] at he
        exact absurd he (by simp)
    | some q2 =>
        exact ⟨q2, by simp [solveTimestepDirect, e],
          hdanti h_stat h2 q2 q hh2 e he⟩

/-- C4: a timestep at which the head fixed-point iteration exhausts the
iteration cap is recorded as not-a-number (`none`) in the flow series, and
the run still produces one entry per timestep (the simulation continues;
no exception propagates, the solver being a total function). -/
theorem nonconvergence_recorded_and_run_continues (pm : PumpModel)
    (ipump : ℚ → ℚ → ℚ) (h_stat : ℚ) (fric : ℚ → ℚ) (atol : ℚ) (cap : Nat)
    (powers : List ℚ) (curves : List (List (ℚ × ℚ))) :
    (calcFlowMppt pm h_stat fric true atol cap powers).length =
      powers.length ∧
    (calcFlowDirect pm ipump h_stat fric true atol cap curves).length =
      curves.length ∧
    (∀ i, (hi : i < powers.length) →
      headIterate pm h_stat fric powers[i] atol cap h_stat = none →
      (calcFlowMppt pm h_stat fric true atol cap powers)[i]? =
        some none) ∧
    (∀ i, (hi : i < curves.length) →
      headIterateDirect pm ipump h_stat fric curves[i] atol cap h_stat =
        none →
      (calcFlowDirect pm ipump h_stat fric true atol cap curves)[i]? =
        some none) := by
  refine ⟨by simp [calcFlowMppt], by simp [calcFlowDirect], ?_, ?_⟩
  · intro i hi hnone
    have hmap : (calcFlowMppt pm h_stat fric true atol cap powers)[i]? =
        some (solveTimestepMppt pm h_stat fric true atol cap powers[i]) := by
      simp [calcFlowMppt, List.getElem?_eq_getElem,
        List.getElem?_eq_getElem (by simpa [calcFlowMppt] using hi)]
    rw [hmap]
    simp [solveTimestepMppt, hnone]
  · intro i hi hnone
    have hmap : (calcFlowDirect pm ipump h_stat fric true atol cap
        curves)[i]? =
        some (solveTimestepDirect pm ipump h_stat fric true atol cap
          curves[i]) := by
      simp [calcFlowDirect, List.getElem?_eq_getElem,
        List.getElem?_eq_getElem (by simpa [calcFlowDirect] using hi)]
    rw [hmap]
    simp [solveTimestepDirect, hnone]

/-- Witness for C4: a pump whose recomputed head runs away exhausts a cap of
two iterations, and the single timestep is recorded as `none`. -/
theorem nonconvergence_recorded_and_run_continues_witness :
    (calcFlowMppt runawayPump 10 (fun q => q) true (1/10) 2 [100])[0]? =
      some none ∧
    (calcFlowDirect runawayPump (fun _ _ => 2) 10 (fun q => q) true (1/10) 2
      [[(10, 1), (20, 8)]])[0]? = some none := by
  have h := nonconvergence_recorded_and_run_continues runawayPump
    (fun _ _ => 2) 10 (fun q => q) (1/10) 2 [100] [[(10, 1), (20, 8)]]
  refine ⟨h.2.2.1 0 (by norm_num) ?_, h.2.2.2 0 (by norm_num) ?_⟩
  · norm_num [headIterate, runawayPump, abs_le]
  · norm_num [headIterateDirect, crossings, bestFlowAt, runawayPump, abs_le]

/-- C5: at a timestep with zero available PV power the computed flow is
exactly zero (not `none`, not an error) in both coupling modes: the pump
cannot operate on zero power under MPPT coupling, and a PV curve carrying
zero current never crosses a positive pump current demand, so the solver
returns the valid idle zero operating point. -/
theorem night_flow_is_zero (pm : PumpModel) (ipump : ℚ → ℚ → ℚ)
    (h_stat atol : ℚ) (fric : ℚ → ℚ) (cap : Nat) (friction : Bool)
    (curve : List (ℚ × ℚ))
    (hz : ∀ h, pm.flowAt 0 h = none)
    (hcap : 0 < cap)
    (hnight : ∀ p ∈ curve, p.2 = 0)
    (hip : ∀ v h, 0 < ipump v h) :
    solveTimestepMppt pm h_stat fric friction atol cap 0 = some 0 ∧
    solveTimestepDirect pm ipump h_stat fric friction atol cap curve =
      some 0 := by
  obtain ⟨n, rfl⟩ : ∃ n, cap = n + 1 :=
    ⟨cap - 1, (Nat.succ_pred_eq_of_pos hcap).symm⟩
  constructor
  · cases friction with
    | true => simp [solveTimestepMppt, headIterate, hz]
    | false => simp [solveTimestepMppt, hz]
  · have hcr : ∀ h, crossings (fun v => ipump v h) curve = [] :=
      fun h => crossings_eq_nil _ (fun v => hip v h) curve hnight
    cases friction with
    | true => simp [solveTimestepDirect, headIterateDirect, hcr, bestFlowAt]
    | false => simp [solveTimestepDirect, hcr, bestFlowAt]

/-- Witness for C5 on a concrete pump, current demand curve, and a
two-point zero-current night PV curve. -/
theorem night_flow_is_zero_witness :
    solveTimestepMppt samplePump 10 (fun q => q) true (1/10) 1 0 = some 0 ∧
    solveTimestepDirect samplePump sampleIpump 10 (fun q => q) true (1/10) 1
      [(0, 0), (10, 0)] = some 0 := by
  refine night_flow_is_zero samplePump sampleIpump 10 (1/10) (fun q => q) 1
    true [(0, 0), (10, 0)] ?_ (by norm_num) ?_ ?_
  · intro h
    simp [samplePump]
  · intro p hp
    simp only [List.mem_cons, List.not_mem_nil, or_false] at hp
    rcases hp with rfl | rfl <;> rfl
  · intro v h
    unfold sampleIpump
    have h1 : 0 ≤ v * v / 100 := div_nonneg (mul_self_nonneg v) (by norm_num)
    have h2 : 0 ≤ h * h / 100 := div_nonneg (mul_self_nonneg h) (by norm_num)
    linarith

/-- C6: every entry of the flow series, in both coupling modes and for any
friction setting, is either `none` or a non-negative flow; the series never
contains a negative value, the pump characteristic delivering only
non-negative flows. -/
theorem flow_never_negative (pm : PumpModel) (ipump : ℚ → ℚ → ℚ)
    (h_stat : ℚ) (fric : ℚ → ℚ) (friction : Bool) (atol : ℚ) (cap : Nat)
    (powers : List ℚ) (curves : List (List (ℚ × ℚ)))
    (hpos : ∀ p h q, pm.flowAt p h = some q → 0 ≤ q) :
    (∀ o ∈ calcFlowMppt pm h_stat fric friction atol cap powers,
      ∀ q, o = some q → 0 ≤ q) ∧
    (∀ o ∈ calcFlowDirect pm ipump h_stat fric friction atol cap curves,
      ∀ q, o = some q → 0 ≤ q) := by
  constructor
  · intro o ho q hoq
    obtain ⟨p, _, rfl⟩ := List.mem_map.mp ho
    cases friction with
    | true =>
        have hq : headIterate pm h_stat fric p atol cap h_stat = some q := by
          simpa [solveTimestepMppt] using hoq
        exact headIterate_nonneg pm h_stat fric p atol hpos cap h_stat q hq
    | false =>
        cases e : pm.flowAt p h_stat with
        | none =>
            have : (0 : ℚ) = q := by
              simpa [solveTimestepMppt, e] using hoq
            exact this ▸ le_rfl
        | some q0 =>
            have : q0 = q := by
              simpa [solveTimestepMppt, e] using hoq
            exact this ▸ hpos p h_stat q0 e
  · intro o ho q hoq
    obtain ⟨c, _, rfl⟩ := List.mem_map.mp ho
    cases friction with
    | true =>
        have hq : headIterateDirect pm ipump h_stat fric c atol cap h_stat =
            some q := by
          simpa [solveTimestepDirect] using hoq
        exact headIterateDirect_nonneg pm ipump h_stat fric c atol hpos cap
          h_stat q hq
    | false =>
        cases e : bestFlowAt pm h_stat
            (crossings (fun v => ipump v h_stat) c) with
        | none =>
            have : (0 : ℚ) = q := by
              simpa [solveTimestepDirect, e] using hoq
            exact this ▸ le_rfl
        | some q0 =>
            have : q0 = q := by
              simpa [solveTimestepDirect, e] using hoq
            exact this ▸ bestFlowAt_nonneg pm h_stat hpos _ q0 e

/-- Witness for C6 at a concrete configuration whose MPPT entry is a
defined flow of 10 and whose direct entry is a defined flow of 150. -/
theorem flow_never_negative_witness : (0 : ℚ) ≤ 10 ∧ (0 : ℚ) ≤ 150 := by
  have h := flow_never_negative samplePump sampleIpump 10 (fun q => q) false
    (1/10) 3 [20] [[(10, 1), (20, 8)]] ?hpos
  case hpos =>
    intro p hh q hq
    have hq2 : (if 0 < p ∧ hh < p then some (p - hh) else none) = some q := hq
    by_cases hc : 0 < p ∧ hh < p
    · rw [if_pos hc] at hq2
      obtain rfl : p - hh = q := by simpa using hq2
      linarith [hc.2]
    · rw [if_neg hc] at hq2
      simp at hq2
  constructor
  · refine h.1 (some 10) ?_ 10 rfl
    norm_num [calcFlowMppt, solveTimestepMppt, samplePump]
  · refine h.2 (some 150) ?_ 150 rfl
    norm_num [calcFlowDirect, solveTimestepDirect, bestFlowAt, crossings,
      samplePump, sampleIpump]

/-- C7: for every timestep of a run in either coupling mode, a defined flow
computed with friction enabled is at most the flow computed with friction
disabled for the same PV input series: friction only adds non-negative
head, and the head-to-flow response only restricts flow as head grows. -/
theorem friction_never_increases_flow (pm : PumpModel)
    (ipump : ℚ → ℚ → ℚ) (h_stat : ℚ) (fric : ℚ → ℚ) (atol : ℚ) (cap : Nat)
    (powers : List ℚ) (curves : List (List (ℚ × ℚ)))
    (hpos : ∀ p h q, pm.flowAt p h = some q → 0 ≤ q)
    (hanti : ∀ p h1 h2 q1 q2, h1 ≤ h2 → pm.flowAt p h1 = some q1 →
      pm.flowAt p h2 = some q2 → q2 ≤ q1)
    (henv : ∀ p h1 h2, h1 ≤ h2 → pm.flowAt p h1 = none →
      pm.flowAt p h2 = none)
    (hdanti : ∀ c ∈ curves, ∀ h1 h2 q1 q2, h1 ≤ h2 →
      directFlowAt pm ipump c h1 = some q1 →
      directFlowAt pm ipump c h2 = some q2 → q2 ≤ q1)
    (hdenv : ∀ c ∈ curves, ∀ h1 h2, h1 ≤ h2 →
      directFlowAt pm ipump c h1 = none → directFlowAt pm ipump c h2 = none)
    (hfric : ∀ x, 0 ≤ fric x) :
    (∀ (i : Nat) (q : ℚ),
      (calcFlowMppt pm h_stat fric true atol cap powers)[i]? =
        some (some q) →
      ∃ q2, (calcFlowMppt pm h_stat fric false atol cap powers)[i]? =
        some (some q2) ∧ q ≤ q2) ∧
    (∀ (i : Nat) (q : ℚ),
      (calcFlowDirect pm ipump h_stat fric true atol cap curves)[i]? =
        some (some q) →
      ∃ q2, (calcFlowDirect pm ipump h_stat fric false atol cap curves)[i]? =
        some (some q2) ∧ q ≤ q2) := by
  constructor
  · intro i q hq
    rw [calcFlowMppt, List.getElem?_map] at hq
    cases e : powers[i]? with
    | none => rw [e] at hq; simp at hq
    | some p =>
        rw [e] at hq
        have hp : solveTimestepMppt pm h_stat fric true atol cap p =
            some q := by simpa using hq
        obtain ⟨q2, hq2, hle⟩ := solveTimestepMppt_friction_le pm h_stat fric
          atol cap p q hpos hanti henv hfric hp
        refine ⟨q2, ?_, hle⟩
        rw [calcFlowMppt, List.getElem?_map, e]
        simp [hq2]
  · intro i q hq
    rw [calcFlowDirect, List.getElem?_map] at hq
    cases e : curves[i]? with
    | none => rw [e] at hq; simp at hq
    | some c =>
        rw [e] at hq
        have hc : c ∈ curves := List.getElem?_mem e
        have hp : solveTimestepDirect pm ipump h_stat fric true atol cap c =
            some q := by simpa using hq
        obtain ⟨q2, hq2, hle⟩ := solveTimestepDirect_friction_le pm ipump
          h_stat fric atol cap c q hpos (hdanti c hc) (hdenv c hc) hfric hp
        refine ⟨q2, ?_, hle⟩
        rw [calcFlowDirect, List.getElem?_map, e]
        simp [hq2]

/-- Witness for C7: with a constant friction head of 1, the friction MPPT
run of a single 20-power timestep converges to flow 9 while the
frictionless run yields flow 10, and the friction direct run on a
one-crossing curve converges to flow 149 while the frictionless run yields
flow 150. -/
theorem friction_never_increases_flow_witness :
    (∃ q2, (calcFlowMppt samplePump 10 (fun _ => 1) false (1/10) 3
      [20])[0]? = some (some q2) ∧ (9 : ℚ) ≤ q2) ∧
    (∃ q2, (calcFlowDirect samplePump (fun _ _ => 2) 10 (fun _ => 1) false
      (1/10) 3 [[(10, 1), (20, 8)]])[0]? = some (some q2) ∧
      (149 : ℚ) ≤ q2) := by
  have hd : ∀ hh : ℚ, directFlowAt samplePump (fun _ _ => (2 : ℚ))
      [((10 : ℚ), (1 : ℚ)), (20, 8)] hh = samplePump.flowAt 160 hh := by
    intro hh
    show bestFlowAt samplePump hh
      (crossings (fun v => ((fun _ _ => (2 : ℚ)) v hh))
        [((10 : ℚ), (1 : ℚ)), (20, 8)]) = samplePump.flowAt 160 hh
    have hcr : crossings (fun v => ((fun _ _ => (2 : ℚ)) v hh))
        [((10 : ℚ), (1 : ℚ)), (20, 8)] = [(20, 8)] := by
      norm_num [crossings]
    rw [hcr]
    cases e : samplePump.flowAt 160 hh with
    | none => norm_num [bestFlowAt, e]
    | some q => norm_num [bestFlowAt, e]
  have hf : ∀ hh : ℚ, samplePump.flowAt 160 hh =
      if hh < 160 then some (160 - hh) else none := by
    intro hh
    show (if (0 : ℚ) < 160 ∧ hh < 160 then some (160 - hh) else none) = _
    norm_num
  have h := friction_never_increases_flow samplePump (fun _ _ => 2) 10
    (fun _ => 1) (1/10) 3 [20] [[(10, 1), (20, 8)]] ?hpos ?hanti ?henv
    ?hdanti ?hdenv (fun x => by norm_num)
  case hpos =>
    intro p hh q hq
    have hq2 : (if 0 < p ∧ hh < p then some (p - hh) else none) = some q := hq
    by_cases hc : 0 < p ∧ hh < p
    · rw [if_pos hc] at hq2
      obtain rfl : p - hh = q := by simpa using hq2
      linarith [hc.2]
    · rw [if_neg hc] at hq2
      simp at hq2
  case hanti =>
    intro p h1 h2 q1 q2 hle hq1 hq2
    have e1 : (if 0 < p ∧ h1 < p then some (p - h1) else none) = some q1 := hq1
    have e2 : (if 0 < p ∧ h2 < p then some (p - h2) else none) = some q2 := hq2
    by_cases hc1 : 0 < p ∧ h1 < p
    · rw [if_pos hc1] at e1
      by_cases hc2 : 0 < p ∧ h2 < p
      · rw [if_pos hc2] at e2
        obtain rfl : p - h1 = q1 := by simpa using e1
        obtain rfl : p - h2 = q2 := by simpa using e2
        linarith
      · rw [if_neg hc2] at e2
        simp at e2
    · rw [if_neg hc1] at e1
      simp at e1
  case henv =>
    intro p h1 h2 hle h1n
    have e1 : (if 0 < p ∧ h1 < p then some (p - h1) else none) = none := h1n
    show (if 0 < p ∧ h2 < p then some (p - h2) else none) = none
    by_cases hc1 : 0 < p ∧ h1 < p
    · rw [if_pos hc1] at e1
      simp at e1
    · rw [if_neg ?_]
      intro hc2
      exact hc1 ⟨hc2.1, lt_of_le_of_lt hle hc2.2⟩
  case hdanti =>
    intro c hc h1 h2 q1 q2 hle e1 e2
    obtain rfl : c = [((10 : ℚ), (1 : ℚ)), (20, 8)] := by simpa using hc
    rw [hd h1, hf h1] at e1
    rw [hd h2, hf h2] at e2
    by_cases hc1 : h1 < 160
    · rw [if_pos hc1] at e1
      by_cases hc2 : h2 < 160
      · rw [if_pos hc2] at e2
        obtain rfl : 160 - h1 = q1 := by simpa using e1
        obtain rfl : 160 - h2 = q2 := by simpa using e2
        linarith
      · rw [if_neg hc2] at e2
        simp at e2
    · rw [if_neg hc1] at e1
      simp at e1
  case hdenv =>
    intro c hc h1 h2 hle e1
    obtain rfl : c = [((10 : ℚ), (1 : ℚ)), (20, 8)] := by simpa using hc
    rw [hd h1, hf h1] at e1
    rw [hd h2, hf h2]
    by_cases hc1 : h1 < 160
    · rw [if_pos hc1] at e1
      simp at e1
    · rw [if_neg ?_]
      intro hc2
      exact hc1 (lt_of_le_of_lt hle hc2)
  refine ⟨h.1 0 9 ?_, h.2 0 149 ?_⟩
  · norm_num [calcFlowMppt, solveTimestepMppt, headIterate, samplePump,
      abs_le]
  · norm_num [calcFlowDirect, solveTimestepDirect, headIterateDirect,
      crossings, bestFlowAt, samplePump, abs_le]

/-- C8: a run of the model is a deterministic pure function of its inputs
and configuration: the reservoir state is reset at the start of each run,
so running the model twice in sequence with identical inputs and identical
configuration (same tolerance, horizon and coupling mode, either mode)
yields a bit-identical flow series, a bit-identical operating-point series
and identical final states — no cross-run mutation. -/
theorem calc_flow_idempotent_across_runs (pm : PumpModel)
    (ipump : ℚ → ℚ → ℚ) (h_stat : ℚ) (fric : ℚ → ℚ) (mode : CouplingMode)
    (friction : Bool) (atol : ℚ) (cap : Nat) (capacity initialStored : ℚ)
    (powers : List ℚ) (curves : List (List (ℚ × ℚ))) (consumed : List ℚ)
    (st : SystemState) :
    (runModel pm ipump h_stat fric mode friction atol cap capacity
        initialStored powers curves consumed
        (runModel pm ipump h_stat fric mode friction atol cap capacity
          initialStored powers curves consumed st).2).1.1 =
      (runModel pm ipump h_stat fric mode friction atol cap capacity
        initialStored powers curves consumed st).1.1 ∧
    (runModel pm ipump h_stat fric mode friction atol cap capacity
        initialStored powers curves consumed
        (runModel pm ipump h_stat fric mode friction atol cap capacity
          initialStored powers curves consumed st).2).1.2 =
      (runModel pm ipump h_stat fric mode friction atol cap capacity
        initialStored powers curves consumed st).1.2 ∧
    (runModel pm ipump h_stat fric mode friction atol cap capacity
        initialStored powers curves consumed
        (runModel pm ipump h_stat fric mode friction atol cap capacity
          initialStored powers curves consumed st).2).2 =
      (runModel pm ipump h_stat fric mode friction atol cap capacity
        initialStored powers curves consumed st).2 :=
  ⟨rfl, rfl, rfl⟩

/-- C9: after every reservoir transition of any timestep sequence the
stored volume lies within [0, capacity]; overflow and deficit are clipped,
never an error. -/
theorem reservoir_stored_within_bounds (capacity : ℚ)
    (hcap : 0 ≤ capacity) :
    ∀ (nets : List ℚ) (s0 s : ℚ), s ∈ reservoirTrace capacity s0 nets →
      0 ≤ s ∧ s ≤ capacity := by
  intro nets
  induction nets with
  | nil => intro s0 s hs; simp [reservoirTrace] at hs
  | cons n rest ih =>
      intro s0 s hs
      simp only [reservoirTrace, List.mem_cons] at hs
      rcases hs with rfl | hs
      · unfold reservoirStep
        exact ⟨le_min hcap (le_max_left 0 _), min_le_left _ _⟩
      · exact ih _ _ hs

/-- Witness for C9: a trace with overflow (net +20 against capacity 10) and
deficit (net −100) keeps the stored volume inside the bounds. -/
theorem reservoir_stored_within_bounds_witness :
    (0 : ℚ) ≤ 10 ∧ (10 : ℚ) ≤ 10 := by
  refine reservoir_stored_within_bounds 10 (by norm_num)
    [5, -3, 20, -100] 0 10 ?_
  norm_num [reservoirTrace, reservoirStep]

/-- C10: the operating-point table uses two distinguishable sentinels: an
idle timestep is recorded as the exact pair (0, 0) while a non-convergent
timestep is recorded as the not-a-number pair (modelled `none`); in the
reference direct scenario rows for hours 11 to 18, hour 15 carries the
not-a-number sentinel and hours 16 to 18 carry the zero pair. -/
theorem operating_point_sentinels :
    operatingPointEntry OpResult.idle = some (0, 0) ∧
    operatingPointEntry OpResult.notConverged = none ∧
    operatingPointEntry OpResult.idle ≠
      operatingPointEntry OpResult.notConverged ∧
    operatingPointTable_ref.length = 8 ∧
    operatingPointTable_ref[4]? = some none ∧
    operatingPointTable_ref.drop 5 = List.replicate 3 (some (0, 0)) ∧
    operatingPointTable_ref[0]? =
      some (some ((3.1552 : ℚ), (75.1672 : ℚ))) := by
  refine ⟨rfl, rfl, ?_, rfl, rfl, rfl, rfl⟩
  simp [operatingPointEntry]

end PVPS
